import Mathlib

/-
Verification of the go-cardano-fees library: a shallow embedding of the
package's pure fee / minUTxO arithmetic into Lean.

Go's uint64 arithmetic wraps silently; every arithmetic expression of the
source is therefore embedded as a natural-number expression reduced
modulo 2^64 (written `% U` below).  Only `AddLovelace` performs an
explicit overflow check in the source, which is embedded as the
corresponding comparison against `U - 1`.
-/

deriving instance DecidableEq for Except

namespace CardanoFees

/-- The uint64 modulus: Go's unsigned 64-bit arithmetic is modulo this. -/
def U : Nat := 2 ^ 64

/-- Error values of the package.  `paramError`, `feeError` and
`minUTxOError` mirror the three typed errors `ParamError`, `FeeError`,
`MinUTxOError`; `genericError` mirrors the untyped `fmt.Errorf` used by
`AddLovelace` and `ToLovelace`. -/
inductive FeesError where
  | paramError (field : String) (message : String)
  | feeError (reason : String)
  | minUTxOError (reason : String)
  | genericError (message : String)
  deriving DecidableEq

/-- The four protocol parameters, as in `params.go`. -/
structure ProtocolParams where
  MinFeeA : Nat
  MinFeeB : Nat
  CoinsPerUTxOByte : Nat
  MaxTxSize : Nat
  deriving DecidableEq

/-- `ProtocolParams.Validate` of `params.go`: each field must be non-zero,
checked in declaration order. -/
def ProtocolParams.Validate (p : ProtocolParams) : Except FeesError Unit :=
  if p.MinFeeA = 0 then .error (.paramError "MinFeeA" "must be non-zero")
  else if p.MinFeeB = 0 then .error (.paramError "MinFeeB" "must be non-zero")
  else if p.CoinsPerUTxOByte = 0 then .error (.paramError "CoinsPerUTxOByte" "must be non-zero")
  else if p.MaxTxSize = 0 then .error (.paramError "MaxTxSize" "must be non-zero")
  else .ok ()

/-- `DefaultMainnetParams` of `params.go`. -/
def DefaultMainnetParams : ProtocolParams :=
  { MinFeeA := 44, MinFeeB := 155381, CoinsPerUTxOByte := 4310, MaxTxSize := 16384 }

/-- `MinFee` of the fee calculator: validate params, reject a zero size and a
size above `MaxTxSize`, otherwise return `MinFeeA*txSizeBytes + MinFeeB`
in uint64 arithmetic. -/
def MinFee (p : ProtocolParams) (txSizeBytes : Nat) : Except FeesError Nat :=
  match p.Validate with
  | .error e => .error e
  | .ok _ =>
    if txSizeBytes = 0 then
      .error (.feeError "txSizeBytes must be greater than zero")
    else if p.MaxTxSize < txSizeBytes then
      .error (.feeError ("txSizeBytes " ++ toString txSizeBytes ++
        " exceeds MaxTxSize " ++ toString p.MaxTxSize))
    else
      .ok ((p.MinFeeA * txSizeBytes + p.MinFeeB) % U)

/-- `MinFeeWithPadding`: delegates to `MinFee` on the uint64 sum of the two
byte counts. -/
def MinFeeWithPadding (p : ProtocolParams) (txSizeBytes paddingBytes : Nat) :
    Except FeesError Nat :=
  MinFee p ((txSizeBytes + paddingBytes) % U)

/-- `EstimateFee`: validates params and the two counts, computes the
calibrated size estimate `200 + 140*numInputs + 65*numOutputs` (+250 with
metadata) in uint64 arithmetic, and delegates to `MinFee`. -/
def EstimateFee (p : ProtocolParams) (numInputs numOutputs : Nat)
    (hasMetadata : Bool) : Except FeesError Nat :=
  match p.Validate with
  | .error e => .error e
  | .ok _ =>
    if numInputs = 0 then
      .error (.feeError "numInputs must be at least 1")
    else if numOutputs = 0 then
      .error (.feeError "numOutputs must be at least 1")
    else
      let estimated := (200 + 140 * numInputs + 65 * numOutputs) % U
      let estimated := if hasMetadata then (estimated + 250) % U else estimated
      MinFee p estimated

/-- The `OutputSize` structure of `minutxo.go`; defaults model Go's
zero-valued struct fields. -/
structure OutputSize where
  AddressBytes : Nat := 0
  NumPolicies : Nat := 0
  NumAssets : Nat := 0
  TotalAssetNameBytes : Nat := 0
  HasDatumHash : Bool := false
  HasInlineDatum : Bool := false
  InlineDatumBytes : Nat := 0
  HasScriptRef : Bool := false
  ScriptRefBytes : Nat := 0
  deriving DecidableEq

/-- `EstimateOutputBytes`: the structural byte-size model of `minutxo.go`,
in uint64 arithmetic (envelope 10 + address + 9; a token-bundle block of
5 + 28 per policy + 12 per asset + name bytes + 5 per asset when any
policies/assets are present; 32 for a datum hash; the literal lengths for
inline datum and script reference). -/
def EstimateOutputBytes (out : OutputSize) : Nat :=
  let total := (10 + out.AddressBytes + 9) % U
  let total :=
    if 0 < out.NumAssets ∨ 0 < out.NumPolicies then
      (total + 5 + 28 * out.NumPolicies + 12 * out.NumAssets +
        out.TotalAssetNameBytes + 5 * out.NumAssets) % U
    else total
  let total := if out.HasDatumHash then (total + 32) % U else total
  let total := if out.HasInlineDatum then (total + out.InlineDatumBytes) % U else total
  let total := if out.HasScriptRef then (total + out.ScriptRefBytes) % U else total
  total

/-- `MinUTxOFromBytes`: validate params, reject a zero byte count, otherwise
return `(160 + serializedOutputBytes) * CoinsPerUTxOByte` in uint64
arithmetic. -/
def MinUTxOFromBytes (p : ProtocolParams) (serializedOutputBytes : Nat) :
    Except FeesError Nat :=
  match p.Validate with
  | .error e => .error e
  | .ok _ =>
    if serializedOutputBytes = 0 then
      .error (.minUTxOError "serializedOutputBytes must be greater than zero")
    else
      .ok (((160 + serializedOutputBytes) * p.CoinsPerUTxOByte) % U)

/-- `MinUTxO`: validate params, then apply `MinUTxOFromBytes` to the
structural estimate. -/
def MinUTxO (p : ProtocolParams) (out : OutputSize) : Except FeesError Nat :=
  match p.Validate with
  | .error e => .error e
  | .ok _ => MinUTxOFromBytes p (EstimateOutputBytes out)

/-- `MinUTxOADAOnly`: `MinUTxO` at a 57-byte address with no assets. -/
def MinUTxOADAOnly (p : ProtocolParams) : Except FeesError Nat :=
  MinUTxO p { AddressBytes := 57 }

/-- `MinUTxOForNFT`: rejects asset names above 32 bytes, otherwise `MinUTxO`
with one policy, one asset and the given name length. -/
def MinUTxOForNFT (p : ProtocolParams) (assetNameLen : Nat) : Except FeesError Nat :=
  if 32 < assetNameLen then
    .error (.minUTxOError ("assetNameLen " ++ toString assetNameLen ++
      " exceeds maximum of 32 bytes"))
  else
    MinUTxO p { AddressBytes := 57, NumPolicies := 1, NumAssets := 1,
                TotalAssetNameBytes := assetNameLen }

/-- `MinUTxOForBundle`: rejects zero policy or asset counts, otherwise
`MinUTxO` with the given counts at a 57-byte address. -/
def MinUTxOForBundle (p : ProtocolParams) (numPolicies numAssets totalAssetNameBytes : Nat) :
    Except FeesError Nat :=
  if numPolicies = 0 then
    .error (.minUTxOError "numPolicies must be at least 1")
  else if numAssets = 0 then
    .error (.minUTxOError "numAssets must be at least 1")
  else
    MinUTxO p { AddressBytes := 57, NumPolicies := numPolicies,
                NumAssets := numAssets, TotalAssetNameBytes := totalAssetNameBytes }

/-- `AddLovelace` of `lovelace.go`: overflow-checked uint64 addition; the
check `a > MaxUint64 - b` is `U - 1 - b < a`. -/
def AddLovelace (a b : Nat) : Except FeesError Nat :=
  if U - 1 - b < a then
    .error (.genericError ("fees: AddLovelace: overflow adding " ++
      toString a ++ " + " ++ toString b))
  else
    .ok (a + b)

/-- The accumulator loop of `SumLovelace`: running total through
`AddLovelace`, aborting on the first error. -/
def SumLovelaceGo (total : Nat) : List Nat → Except FeesError Nat
  | [] => .ok total
  | v :: rest =>
    match AddLovelace total v with
    | .error e => .error e
    | .ok t => SumLovelaceGo t rest

/-- `SumLovelace` of `lovelace.go`: fold `AddLovelace` over the values from
a zero total. -/
def SumLovelace (values : List Nat) : Except FeesError Nat :=
  SumLovelaceGo 0 values

/-- `IsAboveMinUTxO` of `lovelace.go`: compare the amount with the computed
minimum, propagating failures. -/
def IsAboveMinUTxO (p : ProtocolParams) (lovelace : Nat) (out : OutputSize) :
    Except FeesError (Bool × Nat) :=
  match MinUTxO p out with
  | .error e => .error e
  | .ok required => .ok (decide (required ≤ lovelace), required)

example : MinFee DefaultMainnetParams 350 = .ok 170781 := by decide
example : MinUTxOFromBytes DefaultMainnetParams 125 = .ok 1228350 := by decide
example : MinUTxOADAOnly DefaultMainnetParams = .ok 1017160 := by decide

/-- Validation succeeds exactly when every field is non-zero: forward
direction, extracting the four non-zero facts. -/
theorem validate_ok_inv (p : ProtocolParams) (hv : p.Validate = .ok ()) :
    p.MinFeeA ≠ 0 ∧ p.MinFeeB ≠ 0 ∧ p.CoinsPerUTxOByte ≠ 0 ∧ p.MaxTxSize ≠ 0 := by
  unfold ProtocolParams.Validate at hv
  split_ifs at hv
  all_goals simp_all

/-- A failing validation always reports a `paramError`. -/
theorem validate_error_shape (p : ProtocolParams) (e : FeesError)
    (h : p.Validate = .error e) : ∃ fl ms, e = .paramError fl ms := by
  unfold ProtocolParams.Validate at h
  split_ifs at h
  all_goals exact ⟨_, _, (Except.error.inj h).symm⟩

/-- `MinFee` on a validated parameter set and an in-range size returns the
linear formula reduced modulo `2^64`. -/
theorem minFee_ok (p : ProtocolParams) (s : Nat) (hv : p.Validate = .ok ())
    (h0 : s ≠ 0) (hle : s ≤ p.MaxTxSize) :
    MinFee p s = .ok ((p.MinFeeA * s + p.MinFeeB) % U) := by
  unfold MinFee
  rw [hv]
  simp [h0, Nat.not_lt.mpr hle]

/-- Inversion for a successful `MinFee` call: the parameters were valid,
the size was in range, and the value is the wrapped linear formula. -/
theorem minFee_ok_inv (p : ProtocolParams) (s f : Nat) (h : MinFee p s = .ok f) :
    p.Validate = .ok () ∧ s ≠ 0 ∧ s ≤ p.MaxTxSize ∧
      f = (p.MinFeeA * s + p.MinFeeB) % U := by
  unfold MinFee at h
  cases hv : p.Validate with
  | error e => rw [hv] at h; exact absurd h (by simp)
  | ok u =>
    cases u
    rw [hv] at h
    dsimp only at h
    split_ifs at h with h0 hlt
    exact ⟨rfl, h0, Nat.not_lt.mp hlt, (Except.ok.inj h).symm⟩

/-- A successful `EstimateFee` call implies valid parameters and non-zero
input and output counts. -/
theorem estimateFee_ok_inv (p : ProtocolParams) (i o : Nat) (m : Bool) (f : Nat)
    (h : EstimateFee p i o m = .ok f) :
    p.Validate = .ok () ∧ i ≠ 0 ∧ o ≠ 0 := by
  unfold EstimateFee at h
  cases hv : p.Validate with
  | error e => rw [hv] at h; exact absurd h (by simp)
  | ok u =>
    cases u
    rw [hv] at h
    dsimp only at h
    by_cases hi : i = 0
    · rw [if_pos hi] at h; exact absurd h (by simp)
    · rw [if_neg hi] at h
      by_cases ho : o = 0
      · rw [if_pos ho] at h; exact absurd h (by simp)
      · exact ⟨rfl, hi, ho⟩

/-- On valid parameters and non-zero counts, `EstimateFee` is `MinFee` of
the wrapped calibrated size. -/
theorem estimateFee_eq (p : ProtocolParams) (i o : Nat) (m : Bool)
    (hv : p.Validate = .ok ()) (hi : i ≠ 0) (ho : o ≠ 0) :
    EstimateFee p i o m =
      MinFee p ((200 + 140 * i + 65 * o + (if m then 250 else 0)) % U) := by
  unfold EstimateFee
  rw [hv]
  try dsimp only
  rw [if_neg hi, if_neg ho]
  cases m with
  | false => simp
  | true =>
    try dsimp only
    congr 1
    simp only [U, if_true, ite_true]
    omega

/-- When neither the calibrated size nor the resulting fee overflows
uint64, a successful `EstimateFee` equals the exact linear formula on the
exact calibrated size. -/
theorem estimateFee_exact (p : ProtocolParams) (i o : Nat) (m : Bool) (f : Nat)
    (h : EstimateFee p i o m = .ok f)
    (hsz : 200 + 140 * i + 65 * o + 250 < U)
    (hfee : p.MinFeeA * (200 + 140 * i + 65 * o + 250) + p.MinFeeB < U) :
    f = p.MinFeeA * (200 + 140 * i + 65 * o + (if m then 250 else 0)) + p.MinFeeB := by
  obtain ⟨hv, hi, ho⟩ := estimateFee_ok_inv p i o m f h
  rw [estimateFee_eq p i o m hv hi ho] at h
  have hle : 200 + 140 * i + 65 * o + (if m then 250 else 0) ≤
      200 + 140 * i + 65 * o + 250 := by cases m <;> simp
  have hsU : 200 + 140 * i + 65 * o + (if m then 250 else 0) < U :=
    lt_of_le_of_lt hle hsz
  rw [Nat.mod_eq_of_lt hsU] at h
  obtain ⟨_, _, _, hf⟩ := minFee_ok_inv p _ f h
  have hfU : p.MinFeeA * (200 + 140 * i + 65 * o + (if m then 250 else 0)) +
      p.MinFeeB < U :=
    lt_of_le_of_lt (Nat.add_le_add_right (Nat.mul_le_mul_left _ hle) _) hfee
  rw [hf, Nat.mod_eq_of_lt hfU]

/-- `MinUTxOFromBytes` on valid parameters and a positive byte count
returns the CIP-55 product reduced modulo uint64. -/
theorem minUTxOFromBytes_ok (p : ProtocolParams) (n : Nat)
    (hv : p.Validate = .ok ()) (hn : n ≠ 0) :
    MinUTxOFromBytes p n = .ok (((160 + n) * p.CoinsPerUTxOByte) % U) := by
  unfold MinUTxOFromBytes
  rw [hv]
  simp [hn]

/-- The structural estimate of an asset-free 57-byte-address output. -/
theorem estimateOutputBytes_adaOnly :
    EstimateOutputBytes { AddressBytes := 57 } = 76 := by decide

/-- The structural estimate of a token-carrying 57-byte-address output,
when the byte sum does not overflow uint64. -/
theorem estimateOutputBytes_tokens (P A N : Nat) (hP : 0 < P)
    (hlt : 81 + 28 * P + 17 * A + N < U) :
    EstimateOutputBytes { AddressBytes := 57, NumPolicies := P, NumAssets := A, TotalAssetNameBytes := N } = 81 + 28 * P + 17 * A + N := by
  unfold EstimateOutputBytes
  dsimp only
  rw [if_pos (Or.inr hP)]
  simp
  simp only [U] at *
  omega

/-- `MinUTxO` of a token-carrying 57-byte-address output: the exact CIP-55
value when the product does not overflow uint64. -/
theorem minUTxO_tokens (p : ProtocolParams) (P A N : Nat)
    (hv : p.Validate = .ok ()) (hP : 0 < P)
    (hov : (241 + 28 * P + 17 * A + N) * p.CoinsPerUTxOByte < U) :
    MinUTxO p { AddressBytes := 57, NumPolicies := P, NumAssets := A, TotalAssetNameBytes := N } = .ok ((241 + 28 * P + 17 * A + N) * p.CoinsPerUTxOByte) := by
  have hc : p.CoinsPerUTxOByte ≠ 0 := (validate_ok_inv p hv).2.2.1
  have hc1 : 1 ≤ p.CoinsPerUTxOByte := Nat.one_le_iff_ne_zero.mpr hc
  have hmul : 241 + 28 * P + 17 * A + N ≤ (241 + 28 * P + 17 * A + N) * p.CoinsPerUTxOByte := by
    calc 241 + 28 * P + 17 * A + N = (241 + 28 * P + 17 * A + N) * 1 := by ring
      _ ≤ (241 + 28 * P + 17 * A + N) * p.CoinsPerUTxOByte := Nat.mul_le_mul_left _ hc1
  have hE : 81 + 28 * P + 17 * A + N < U := by omega
  unfold MinUTxO
  rw [hv]
  dsimp only
  rw [estimateOutputBytes_tokens P A N hP hE]
  rw [minUTxOFromBytes_ok p _ hv (by omega)]
  have harith : 160 + (81 + 28 * P + 17 * A + N) = 241 + 28 * P + 17 * A + N := by omega
  rw [harith, Nat.mod_eq_of_lt hov]

/-- `MinUTxOADAOnly`: the exact CIP-55 value when the product does not
overflow uint64. -/
theorem minUTxO_adaOnly (p : ProtocolParams) (hv : p.Validate = .ok ())
    (hov : 236 * p.CoinsPerUTxOByte < U) :
    MinUTxOADAOnly p = .ok (236 * p.CoinsPerUTxOByte) := by
  unfold MinUTxOADAOnly MinUTxO
  rw [hv]
  dsimp only
  rw [estimateOutputBytes_adaOnly]
  rw [minUTxOFromBytes_ok p 76 hv (by omega)]
  have harith : (160 + 76) * p.CoinsPerUTxOByte = 236 * p.CoinsPerUTxOByte := by norm_num
  rw [harith, Nat.mod_eq_of_lt hov]

/-- Lower and upper bounds on the structural estimate when the sum of all
structural contributions does not overflow uint64. -/
theorem estimateOutputBytes_bounds (out : OutputSize)
    (hB : 19 + out.AddressBytes + 5 + 28 * out.NumPolicies + 17 * out.NumAssets +
      out.TotalAssetNameBytes + 32 + out.InlineDatumBytes + out.ScriptRefBytes < U) :
    19 ≤ EstimateOutputBytes out ∧ EstimateOutputBytes out < U := by
  obtain ⟨addr, P, A, N, hd, hid, idb, hsr, srb⟩ := out
  unfold EstimateOutputBytes
  dsimp only at *
  by_cases hPA : 0 < A ∨ 0 < P
  · rw [if_pos hPA]
    cases hd <;> cases hid <;> cases hsr <;> simp <;> simp only [U] at * <;> omega
  · rw [if_neg hPA]
    cases hd <;> cases hid <;> cases hsr <;> simp <;> simp only [U] at * <;> omega

/-- A successful `EstimateFee` is non-decreasing in the input count, as long
as neither the calibrated size nor the fee overflows uint64 at the larger
count. -/
theorem estimateFee_mono_inputs (p : ProtocolParams) (i1 i2 o : Nat) (m : Bool)
    (f1 f2 : Nat) (hle : i1 ≤ i2)
    (h1 : EstimateFee p i1 o m = .ok f1) (h2 : EstimateFee p i2 o m = .ok f2)
    (hsz : 200 + 140 * i2 + 65 * o + 250 < U)
    (hfee : p.MinFeeA * (200 + 140 * i2 + 65 * o + 250) + p.MinFeeB < U) :
    f1 ≤ f2 := by
  have hfee1 : p.MinFeeA * (200 + 140 * i1 + 65 * o + 250) + p.MinFeeB < U :=
    lt_of_le_of_lt (Nat.add_le_add_right (Nat.mul_le_mul_left _ (by omega)) _) hfee
  have e1 := estimateFee_exact p i1 o m f1 h1 (by omega) hfee1
  have e2 := estimateFee_exact p i2 o m f2 h2 hsz hfee
  rw [e1, e2]
  exact Nat.add_le_add_right (Nat.mul_le_mul_left _ (by cases m <;> simp <;> omega)) _

/-- A successful `EstimateFee` is non-decreasing in the output count under
the same no-overflow side conditions. -/
theorem estimateFee_mono_outputs (p : ProtocolParams) (i o1 o2 : Nat) (m : Bool)
    (f1 f2 : Nat) (hle : o1 ≤ o2)
    (h1 : EstimateFee p i o1 m = .ok f1) (h2 : EstimateFee p i o2 m = .ok f2)
    (hsz : 200 + 140 * i + 65 * o2 + 250 < U)
    (hfee : p.MinFeeA * (200 + 140 * i + 65 * o2 + 250) + p.MinFeeB < U) :
    f1 ≤ f2 := by
  have hfee1 : p.MinFeeA * (200 + 140 * i + 65 * o1 + 250) + p.MinFeeB < U :=
    lt_of_le_of_lt (Nat.add_le_add_right (Nat.mul_le_mul_left _ (by omega)) _) hfee
  have e1 := estimateFee_exact p i o1 m f1 h1 (by omega) hfee1
  have e2 := estimateFee_exact p i o2 m f2 h2 hsz hfee
  rw [e1, e2]
  exact Nat.add_le_add_right (Nat.mul_le_mul_left _ (by cases m <;> simp <;> omega)) _

/-- Flipping the metadata flag from false to true strictly increases a
successful `EstimateFee`, under the same no-overflow side conditions. -/
theorem estimateFee_meta_strict (p : ProtocolParams) (i o : Nat) (f1 f2 : Nat)
    (h1 : EstimateFee p i o false = .ok f1) (h2 : EstimateFee p i o true = .ok f2)
    (hsz : 200 + 140 * i + 65 * o + 250 < U)
    (hfee : p.MinFeeA * (200 + 140 * i + 65 * o + 250) + p.MinFeeB < U) :
    f1 < f2 := by
  have hapos : 0 < p.MinFeeA :=
    Nat.pos_of_ne_zero (validate_ok_inv p (estimateFee_ok_inv p i o false f1 h1).1).1
  have e1 := estimateFee_exact p i o false f1 h1 hsz
    (lt_of_le_of_lt (Nat.add_le_add_right (Nat.mul_le_mul_left _ (by omega)) _) hfee)
  have e2 := estimateFee_exact p i o true f2 h2 hsz hfee
  rw [if_neg (by simp)] at e1
  rw [if_pos rfl] at e2
  rw [e1, e2]
  refine Nat.add_lt_add_right ?_ _
  exact (mul_lt_mul_left hapos).mpr (by omega)

/-- The `SumLovelace` loop is the monadic left fold of `AddLovelace`. -/
theorem sumLovelaceGo_foldlM (l : List Nat) (total : Nat) :
    SumLovelaceGo total l = List.foldlM AddLovelace total l := by
  induction l generalizing total with
  | nil => rfl
  | cons v rest ih =>
    rw [List.foldlM_cons]
    unfold SumLovelaceGo
    cases h : AddLovelace total v with
    | error e => rfl
    | ok t => exact ih t

/-- The `SumLovelace` loop fails at the first position whose element pushes
the running total past the uint64 maximum, reporting exactly that addition. -/
theorem sumLovelaceGo_first_overflow (l : List Nat) (k total : Nat)
    (hall : ∀ x ∈ l, x < U)
    (hk : k < l.length)
    (hpre : total + (l.take k).sum < U)
    (hov : U ≤ total + (l.take k).sum + l.get ⟨k, hk⟩) :
    SumLovelaceGo total l = .error (.genericError
      ("fees: AddLovelace: overflow adding " ++ toString (total + (l.take k).sum) ++
        " + " ++ toString (l.get ⟨k, hk⟩))) := by
  induction l generalizing k total with
  | nil => simp at hk
  | cons v rest ih =>
    have hv : v < U := hall v (by simp)
    cases k with
    | zero =>
      simp only [List.take_zero, List.sum_nil, Nat.add_zero, List.get] at hpre hov ⊢
      unfold SumLovelaceGo AddLovelace
      rw [if_pos (by simp only [U] at *; omega)]
    | succ q =>
      have hq : q < rest.length := by simpa using hk
      simp only [List.take_succ_cons, List.sum_cons, List.get_cons_succ] at hpre hov ⊢
      unfold SumLovelaceGo AddLovelace
      rw [if_neg (by simp only [U] at *; omega)]
      have hassoc : total + (v + (rest.take q).sum) = total + v + (rest.take q).sum := by
        omega
      rw [hassoc]
      exact ih q (total + v) (fun x hx => hall x (by simp [hx])) hq (by omega) (by omega)

/-- Claim C1 fails as stated: with the valid parameter set
(MinFeeA = 2^63, MinFeeB = 1, CoinsPerUTxOByte = 1, MaxTxSize = 16384) and
the in-range size 2, `MinFee` succeeds with the wrapped value 1 instead of
the exact value 2^63*2 + 1. -/
theorem minFee_exact_value_counterexample :
    (ProtocolParams.mk (2 ^ 63) 1 1 16384).Validate = .ok () ∧
    1 ≤ 2 ∧ 2 ≤ (ProtocolParams.mk (2 ^ 63) 1 1 16384).MaxTxSize ∧
    MinFee (ProtocolParams.mk (2 ^ 63) 1 1 16384) 2 = .ok 1 ∧
    MinFee (ProtocolParams.mk (2 ^ 63) 1 1 16384) 2 ≠ .ok (2 ^ 63 * 2 + 1) :=
  ⟨by decide, by decide, by decide, by decide, by decide⟩

/-- Claim C1 (amended): on valid parameters and an in-range size, `MinFee`
returns MinFeeA*txSizeBytes + MinFeeB reduced modulo 2^64; it fails with a
`feeError` for size zero and for a size above MaxTxSize, and with a
`paramError` on invalid parameters. -/
theorem minFee_spec_mod (p q : ProtocolParams) (txSizeBytes s t : Nat)
    (hv : p.Validate = .ok ()) (h1 : 1 ≤ txSizeBytes) (h2 : txSizeBytes ≤ p.MaxTxSize)
    (hs : p.MaxTxSize < s) (hq : q.Validate ≠ .ok ()) :
    MinFee p txSizeBytes = .ok ((p.MinFeeA * txSizeBytes + p.MinFeeB) % U) ∧
    MinFee p 0 = .error (.feeError "txSizeBytes must be greater than zero") ∧
    MinFee p s = .error (.feeError ("txSizeBytes " ++ toString s ++
      " exceeds MaxTxSize " ++ toString p.MaxTxSize)) ∧
    ∃ fl ms, MinFee q t = .error (.paramError fl ms) := by
  refine ⟨minFee_ok p txSizeBytes hv (by omega) h2, ?_, ?_, ?_⟩
  · unfold MinFee
    rw [hv]
    simp
  · have hs0 : s ≠ 0 := by
      have := (validate_ok_inv p hv).2.2.2
      omega
    unfold MinFee
    rw [hv]
    simp [hs0, hs]
  · cases hqe : q.Validate with
    | ok u => cases u; exact absurd hqe hq
    | error e =>
      obtain ⟨fl, ms, he⟩ := validate_error_shape q e hqe
      subst he
      refine ⟨fl, ms, ?_⟩
      unfold MinFee
      rw [hqe]

/-- Witness for the amended claim C1 at the mainnet parameters. -/
theorem minFee_spec_mod_witness :
    (DefaultMainnetParams.Validate = .ok () ∧ 1 ≤ 350 ∧
      350 ≤ DefaultMainnetParams.MaxTxSize ∧ DefaultMainnetParams.MaxTxSize < 20000 ∧
      (ProtocolParams.mk 0 0 0 0).Validate ≠ .ok ()) ∧
    (MinFee DefaultMainnetParams 350 =
        .ok ((DefaultMainnetParams.MinFeeA * 350 + DefaultMainnetParams.MinFeeB) % U) ∧
      MinFee DefaultMainnetParams 0 =
        .error (.feeError "txSizeBytes must be greater than zero") ∧
      MinFee DefaultMainnetParams 20000 = .error (.feeError ("txSizeBytes " ++
        toString 20000 ++ " exceeds MaxTxSize " ++ toString DefaultMainnetParams.MaxTxSize)) ∧
      ∃ fl ms, MinFee (ProtocolParams.mk 0 0 0 0) 300 = .error (.paramError fl ms)) :=
  ⟨⟨by decide, by decide, by decide, by decide, by decide⟩,
    minFee_spec_mod DefaultMainnetParams (ProtocolParams.mk 0 0 0 0) 350 20000 300
      (by decide) (by decide) (by decide) (by decide) (by decide)⟩

/-- Claim C2 fails as stated: with the valid parameter set
(MinFeeA = 1, MinFeeB = 1, CoinsPerUTxOByte = 2^63, MaxTxSize = 1) and the
positive byte count 2, `MinUTxOFromBytes` succeeds with the wrapped value 0
instead of the exact product 162 * 2^63. -/
theorem minUTxOFromBytes_exact_value_counterexample :
    (ProtocolParams.mk 1 1 (2 ^ 63) 1).Validate = .ok () ∧
    0 < 2 ∧
    MinUTxOFromBytes (ProtocolParams.mk 1 1 (2 ^ 63) 1) 2 = .ok 0 ∧
    MinUTxOFromBytes (ProtocolParams.mk 1 1 (2 ^ 63) 1) 2 ≠ .ok ((160 + 2) * 2 ^ 63) :=
  ⟨by decide, by decide, by decide, by decide⟩

/-- Claim C2 (amended): on valid parameters and a positive byte count,
`MinUTxOFromBytes` returns (160+n)*CoinsPerUTxOByte reduced modulo 2^64 and
fails for a zero count; the worked mainnet examples hold exactly. -/
theorem minUTxOFromBytes_spec_mod (p : ProtocolParams) (n : Nat)
    (hv : p.Validate = .ok ()) (hn : 0 < n) :
    MinUTxOFromBytes p n = .ok (((160 + n) * p.CoinsPerUTxOByte) % U) ∧
    MinUTxOFromBytes p 0 =
      .error (.minUTxOError "serializedOutputBytes must be greater than zero") ∧
    MinFee DefaultMainnetParams 350 = .ok 170781 ∧
    MinUTxOFromBytes DefaultMainnetParams 125 = .ok 1228350 := by
  refine ⟨minUTxOFromBytes_ok p n hv (by omega), ?_, by decide, by decide⟩
  unfold MinUTxOFromBytes
  rw [hv]
  simp

/-- Witness for the amended claim C2 at the mainnet parameters. -/
theorem minUTxOFromBytes_spec_mod_witness :
    (DefaultMainnetParams.Validate = .ok () ∧ 0 < 125) ∧
    (MinUTxOFromBytes DefaultMainnetParams 125 =
        .ok (((160 + 125) * DefaultMainnetParams.CoinsPerUTxOByte) % U) ∧
      MinUTxOFromBytes DefaultMainnetParams 0 =
        .error (.minUTxOError "serializedOutputBytes must be greater than zero") ∧
      MinFee DefaultMainnetParams 350 = .ok 170781 ∧
      MinUTxOFromBytes DefaultMainnetParams 125 = .ok 1228350) :=
  ⟨⟨by decide, by decide⟩,
    minUTxOFromBytes_spec_mod DefaultMainnetParams 125 (by decide) (by decide)⟩

/-- Claim C3 fails as stated: with the valid parameter set
(MinFeeA = 2^32, MinFeeB = 2^32, CoinsPerUTxOByte = 1, MaxTxSize = 2^33)
and size 2^32, `MinFee` neither fails nor returns the exact integer; it
returns the value reduced modulo 2^64. -/
theorem overflow_detection_counterexample :
    (ProtocolParams.mk (2 ^ 32) (2 ^ 32) 1 (2 ^ 33)).Validate = .ok () ∧
    MinFee (ProtocolParams.mk (2 ^ 32) (2 ^ 32) 1 (2 ^ 33)) (2 ^ 32) = .ok (2 ^ 32) ∧
    (2 ^ 32 : Nat) ≠ 2 ^ 32 * 2 ^ 32 + 2 ^ 32 ∧
    (2 ^ 32 : Nat) = (2 ^ 32 * 2 ^ 32 + 2 ^ 32) % 2 ^ 64 :=
  ⟨by decide, by decide, by decide, by decide⟩

/-- Claim C3 (amended): `AddLovelace` detects overflow — it returns the
exact sum when it fits and an explicit error otherwise — while `MinFee` and
`MinUTxOFromBytes` return exact results only when the formula value is
below 2^64 (otherwise they silently reduce modulo 2^64). -/
theorem overflow_detection_amended (a b : Nat) (p : ProtocolParams) (s n : Nat)
    (ha : a < U) (hb : b < U)
    (hv : p.Validate = .ok ()) (h1 : 1 ≤ s) (h2 : s ≤ p.MaxTxSize) (hn : 0 < n)
    (hf : p.MinFeeA * s + p.MinFeeB < U)
    (hu : (160 + n) * p.CoinsPerUTxOByte < U) :
    (a + b < U → AddLovelace a b = .ok (a + b)) ∧
    (U ≤ a + b → AddLovelace a b = .error (.genericError
      ("fees: AddLovelace: overflow adding " ++ toString a ++ " + " ++ toString b))) ∧
    MinFee p s = .ok (p.MinFeeA * s + p.MinFeeB) ∧
    MinUTxOFromBytes p n = .ok ((160 + n) * p.CoinsPerUTxOByte) := by
  refine ⟨?_, ?_, ?_, ?_⟩
  · intro hab
    unfold AddLovelace
    rw [if_neg (by simp only [U] at *; omega)]
  · intro hab
    unfold AddLovelace
    rw [if_pos (by simp only [U] at *; omega)]
  · rw [minFee_ok p s hv (by omega) h2, Nat.mod_eq_of_lt hf]
  · rw [minUTxOFromBytes_ok p n hv (by omega), Nat.mod_eq_of_lt hu]

/-- Witness for the amended claim C3 at the mainnet parameters. -/
theorem overflow_detection_amended_witness :
    ((1 : Nat) < U ∧ (2 : Nat) < U ∧ DefaultMainnetParams.Validate = .ok () ∧
      1 ≤ 350 ∧ 350 ≤ DefaultMainnetParams.MaxTxSize ∧ 0 < 125 ∧
      DefaultMainnetParams.MinFeeA * 350 + DefaultMainnetParams.MinFeeB < U ∧
      (160 + 125) * DefaultMainnetParams.CoinsPerUTxOByte < U) ∧
    ((1 + 2 < U → AddLovelace 1 2 = .ok (1 + 2)) ∧
      (U ≤ 1 + 2 → AddLovelace 1 2 = .error (.genericError
        ("fees: AddLovelace: overflow adding " ++ toString 1 ++ " + " ++ toString 2))) ∧
      MinFee DefaultMainnetParams 350 =
        .ok (DefaultMainnetParams.MinFeeA * 350 + DefaultMainnetParams.MinFeeB) ∧
      MinUTxOFromBytes DefaultMainnetParams 125 =
        .ok ((160 + 125) * DefaultMainnetParams.CoinsPerUTxOByte)) :=
  ⟨⟨by decide, by decide, by decide, by decide, by decide, by decide, by decide, by decide⟩,
    overflow_detection_amended 1 2 DefaultMainnetParams 350 125 (by decide) (by decide)
      (by decide) (by decide) (by decide) (by decide) (by decide) (by decide)⟩

/-- Claim C4 fails as stated: with valid parameters whose MaxTxSize is
2^64 - 1, raising numInputs from 1 to 2^62 makes the calibrated size wrap
modulo 2^64, and the successful fee strictly decreases. -/
theorem estimateFee_monotone_counterexample :
    (ProtocolParams.mk 44 155381 4310 (2 ^ 64 - 1)).Validate = .ok () ∧
    (1 : Nat) ≤ 2 ^ 62 ∧
    EstimateFee (ProtocolParams.mk 44 155381 4310 (2 ^ 64 - 1)) 1 1 false = .ok 173201 ∧
    EstimateFee (ProtocolParams.mk 44 155381 4310 (2 ^ 64 - 1)) (2 ^ 62) 1 false = .ok 167041 ∧
    (167041 : Nat) < 173201 :=
  ⟨by decide, by decide, by decide, by decide, by decide⟩

/-- Claim C4 (amended): holding the other arguments fixed, a successful
`EstimateFee` is non-decreasing in numInputs and numOutputs and strictly
increases when the metadata flag flips from false to true, provided the
calibrated size and the resulting fee stay below 2^64. -/
theorem estimateFee_monotone_amended (p : ProtocolParams)
    (i1 i2 oA iB o1 o2 iC oC fa1 fa2 fb1 fb2 fc1 fc2 : Nat) (mA mB : Bool)
    (hA : i1 ≤ i2)
    (ha1 : EstimateFee p i1 oA mA = .ok fa1)
    (ha2 : EstimateFee p i2 oA mA = .ok fa2)
    (hAsz : 200 + 140 * i2 + 65 * oA + 250 < U)
    (hAfee : p.MinFeeA * (200 + 140 * i2 + 65 * oA + 250) + p.MinFeeB < U)
    (hB : o1 ≤ o2)
    (hb1 : EstimateFee p iB o1 mB = .ok fb1)
    (hb2 : EstimateFee p iB o2 mB = .ok fb2)
    (hBsz : 200 + 140 * iB + 65 * o2 + 250 < U)
    (hBfee : p.MinFeeA * (200 + 140 * iB + 65 * o2 + 250) + p.MinFeeB < U)
    (hc1 : EstimateFee p iC oC false = .ok fc1)
    (hc2 : EstimateFee p iC oC true = .ok fc2)
    (hCsz : 200 + 140 * iC + 65 * oC + 250 < U)
    (hCfee : p.MinFeeA * (200 + 140 * iC + 65 * oC + 250) + p.MinFeeB < U) :
    fa1 ≤ fa2 ∧ fb1 ≤ fb2 ∧ fc1 < fc2 :=
  ⟨estimateFee_mono_inputs p i1 i2 oA mA fa1 fa2 hA ha1 ha2 hAsz hAfee,
    estimateFee_mono_outputs p iB o1 o2 mB fb1 fb2 hB hb1 hb2 hBsz hBfee,
    estimateFee_meta_strict p iC oC fc1 fc2 hc1 hc2 hCsz hCfee⟩

/-- Witness for the amended claim C4 at the mainnet parameters. -/
theorem estimateFee_monotone_amended_witness :
    (EstimateFee DefaultMainnetParams 1 1 false = .ok 173201 ∧
      EstimateFee DefaultMainnetParams 2 1 false = .ok 179361 ∧
      EstimateFee DefaultMainnetParams 1 2 false = .ok 176061 ∧
      EstimateFee DefaultMainnetParams 1 1 true = .ok 184201) ∧
    ((173201 : Nat) ≤ 179361 ∧ (173201 : Nat) ≤ 176061 ∧ (173201 : Nat) < 184201) :=
  ⟨⟨by decide, by decide, by decide, by decide⟩,
    estimateFee_monotone_amended DefaultMainnetParams 1 2 1 1 1 2 1 1
      173201 179361 173201 176061 173201 184201 false false
      (by decide) (by decide) (by decide) (by decide) (by decide) (by decide)
      (by decide) (by decide) (by decide) (by decide) (by decide) (by decide)
      (by decide) (by decide)⟩

/-- Claim C5: `EstimateFee` fails when numInputs or numOutputs is zero or
the parameters are invalid, and otherwise delegates to `MinFee` on the
calibrated size 200 + 140*numInputs + 65*numOutputs (+250 with metadata),
computed in uint64 arithmetic. -/
theorem estimateFee_delegation (p q : ProtocolParams) (i o j k : Nat) (m mm : Bool)
    (hfail : i = 0 ∨ o = 0 ∨ p.Validate ≠ .ok ())
    (hq : q.Validate = .ok ()) (hj : j ≠ 0) (hk : k ≠ 0) :
    (∃ e, EstimateFee p i o m = .error e) ∧
    EstimateFee q j k mm =
      MinFee q ((200 + 140 * j + 65 * k + (if mm then 250 else 0)) % U) := by
  refine ⟨?_, estimateFee_eq q j k mm hq hj hk⟩
  cases hpv : p.Validate with
  | error e =>
    refine ⟨e, ?_⟩
    unfold EstimateFee
    rw [hpv]
  | ok u =>
    cases u
    rcases hfail with hi | ho | hnv
    · refine ⟨.feeError "numInputs must be at least 1", ?_⟩
      unfold EstimateFee
      rw [hpv]
      simp [hi]
    · by_cases hi : i = 0
      · refine ⟨.feeError "numInputs must be at least 1", ?_⟩
        unfold EstimateFee
        rw [hpv]
        simp [hi]
      · refine ⟨.feeError "numOutputs must be at least 1", ?_⟩
        unfold EstimateFee
        rw [hpv]
        simp [hi, ho]
    · exact absurd hpv hnv

/-- Witness for claim C5: zero inputs fail, and a 2-input 2-output call with
metadata at the mainnet parameters delegates to `MinFee` on size 860. -/
theorem estimateFee_delegation_witness :
    ((0 = 0 ∨ 1 = 0 ∨ DefaultMainnetParams.Validate ≠ .ok ()) ∧
      DefaultMainnetParams.Validate = .ok () ∧ 2 ≠ 0 ∧ 2 ≠ 0) ∧
    ((∃ e, EstimateFee DefaultMainnetParams 0 1 false = .error e) ∧
      EstimateFee DefaultMainnetParams 2 2 true =
        MinFee DefaultMainnetParams ((200 + 140 * 2 + 65 * 2 + (if true then 250 else 0)) % U)) :=
  ⟨⟨Or.inl rfl, by decide, by decide, by decide⟩,
    estimateFee_delegation DefaultMainnetParams DefaultMainnetParams 0 1 2 2 false true
      (Or.inl rfl) (by decide) (by decide) (by decide)⟩

/-- Claim C6 fails as stated: with the valid parameter set
(MinFeeA = 1, MinFeeB = 1, CoinsPerUTxOByte = 2^63, MaxTxSize = 1) and
asset name length 0, both the NFT minimum and the ADA-only minimum wrap to
0, so the NFT value does not strictly exceed the ADA-only value. -/
theorem minUTxOForNFT_exceeds_counterexample :
    (ProtocolParams.mk 1 1 (2 ^ 63) 1).Validate = .ok () ∧
    (0 : Nat) ≤ 32 ∧
    MinUTxOForNFT (ProtocolParams.mk 1 1 (2 ^ 63) 1) 0 = .ok 0 ∧
    MinUTxOADAOnly (ProtocolParams.mk 1 1 (2 ^ 63) 1) = .ok 0 ∧
    ¬ (∃ nft ada : Nat, MinUTxOForNFT (ProtocolParams.mk 1 1 (2 ^ 63) 1) 0 = .ok nft ∧
        MinUTxOADAOnly (ProtocolParams.mk 1 1 (2 ^ 63) 1) = .ok ada ∧ ada < nft) := by
  refine ⟨by decide, by decide, by decide, by decide, ?_⟩
  rintro ⟨nft, ada, h1, h2, hlt⟩
  have hnft : (0 : Nat) = nft := Except.ok.inj
    ((show MinUTxOForNFT (ProtocolParams.mk 1 1 (2 ^ 63) 1) 0 = .ok 0 by decide).symm.trans h1)
  have hada : (0 : Nat) = ada := Except.ok.inj
    ((show MinUTxOADAOnly (ProtocolParams.mk 1 1 (2 ^ 63) 1) = .ok 0 by decide).symm.trans h2)
  omega

/-- Claim C6 (amended): on valid parameters with 318*CoinsPerUTxOByte below
2^64 (no uint64 overflow), `MinUTxOForNFT` fails above the 32-byte name cap
and otherwise succeeds with a value strictly above `MinUTxOADAOnly`. -/
theorem minUTxOForNFT_spec_amended (p : ProtocolParams) (len len2 : Nat)
    (hv : p.Validate = .ok ()) (hlen : len ≤ 32) (hlen2 : 32 < len2)
    (hov : 318 * p.CoinsPerUTxOByte < U) :
    MinUTxOForNFT p len2 = .error (.minUTxOError ("assetNameLen " ++ toString len2 ++
      " exceeds maximum of 32 bytes")) ∧
    MinUTxOForNFT p len = .ok ((286 + len) * p.CoinsPerUTxOByte) ∧
    MinUTxOADAOnly p = .ok (236 * p.CoinsPerUTxOByte) ∧
    236 * p.CoinsPerUTxOByte < (286 + len) * p.CoinsPerUTxOByte := by
  have hc : p.CoinsPerUTxOByte ≠ 0 := (validate_ok_inv p hv).2.2.1
  have hcpos : 0 < p.CoinsPerUTxOByte := Nat.pos_of_ne_zero hc
  have hmono : (286 + len) * p.CoinsPerUTxOByte ≤ 318 * p.CoinsPerUTxOByte :=
    Nat.mul_le_mul_right _ (by omega)
  refine ⟨?_, ?_, ?_, ?_⟩
  · unfold MinUTxOForNFT
    rw [if_pos hlen2]
  · unfold MinUTxOForNFT
    rw [if_neg (by omega)]
    have hb : (241 + 28 * 1 + 17 * 1 + len) * p.CoinsPerUTxOByte ≤
        318 * p.CoinsPerUTxOByte := Nat.mul_le_mul_right _ (by omega)
    have h := minUTxO_tokens p 1 1 len hv (by omega) (lt_of_le_of_lt hb hov)
    convert h using 3
  · exact minUTxO_adaOnly p hv (by omega)
  · exact (Nat.mul_lt_mul_right hcpos).mpr (by omega)

/-- Witness for the amended claim C6 at the mainnet parameters, asset name
length 16 (and the failing length 33). -/
theorem minUTxOForNFT_spec_amended_witness :
    (DefaultMainnetParams.Validate = .ok () ∧ (16 : Nat) ≤ 32 ∧ (32 : Nat) < 33 ∧
      318 * DefaultMainnetParams.CoinsPerUTxOByte < U) ∧
    (MinUTxOForNFT DefaultMainnetParams 33 = .error (.minUTxOError ("assetNameLen " ++
        toString 33 ++ " exceeds maximum of 32 bytes")) ∧
      MinUTxOForNFT DefaultMainnetParams 16 =
        .ok ((286 + 16) * DefaultMainnetParams.CoinsPerUTxOByte) ∧
      MinUTxOADAOnly DefaultMainnetParams =
        .ok (236 * DefaultMainnetParams.CoinsPerUTxOByte) ∧
      236 * DefaultMainnetParams.CoinsPerUTxOByte <
        (286 + 16) * DefaultMainnetParams.CoinsPerUTxOByte) :=
  ⟨⟨by decide, by decide, by decide, by decide⟩,
    minUTxOForNFT_spec_amended DefaultMainnetParams 16 33
      (by decide) (by decide) (by decide) (by decide)⟩

/-- Claim C7 fails as stated: with the valid parameter set
(MinFeeA = 1, MinFeeB = 1, CoinsPerUTxOByte = 2^63, MaxTxSize = 1), growing
totalAssetNameBytes from 0 to 2 leaves the successful result at the wrapped
value 0, so the result does not strictly increase. -/
theorem minUTxOForBundle_monotone_counterexample :
    (ProtocolParams.mk 1 1 (2 ^ 63) 1).Validate = .ok () ∧
    MinUTxOForBundle (ProtocolParams.mk 1 1 (2 ^ 63) 1) 1 1 0 = .ok 0 ∧
    MinUTxOForBundle (ProtocolParams.mk 1 1 (2 ^ 63) 1) 1 1 2 = .ok 0 ∧
    ¬ (∃ v1 v2 : Nat, MinUTxOForBundle (ProtocolParams.mk 1 1 (2 ^ 63) 1) 1 1 0 = .ok v1 ∧
        MinUTxOForBundle (ProtocolParams.mk 1 1 (2 ^ 63) 1) 1 1 2 = .ok v2 ∧ v1 < v2) := by
  refine ⟨by decide, by decide, by decide, ?_⟩
  rintro ⟨v1, v2, h1, h2, hlt⟩
  have hv1 : (0 : Nat) = v1 := Except.ok.inj
    ((show MinUTxOForBundle (ProtocolParams.mk 1 1 (2 ^ 63) 1) 1 1 0 = .ok 0 by decide).symm.trans h1)
  have hv2 : (0 : Nat) = v2 := Except.ok.inj
    ((show MinUTxOForBundle (ProtocolParams.mk 1 1 (2 ^ 63) 1) 1 1 2 = .ok 0 by decide).symm.trans h2)
  omega

/-- Claim C7 (amended): `MinUTxOForBundle` fails on a zero policy or asset
count; on valid parameters, when the CIP-55 product at the grown bundle
stays below 2^64, the successful result strictly increases in each of the
three bundle arguments separately. -/
theorem minUTxOForBundle_spec_amended (p : ProtocolParams) (P A N P2 A2 N2 : Nat)
    (hv : p.Validate = .ok ()) (hP : 1 ≤ P) (hA : 1 ≤ A)
    (hP2 : P < P2) (hA2 : A < A2) (hN2 : N < N2)
    (hov : (241 + 28 * P2 + 17 * A2 + N2) * p.CoinsPerUTxOByte < U) :
    MinUTxOForBundle p 0 A N = .error (.minUTxOError "numPolicies must be at least 1") ∧
    MinUTxOForBundle p P 0 N = .error (.minUTxOError "numAssets must be at least 1") ∧
    MinUTxOForBundle p P A N = .ok ((241 + 28 * P + 17 * A + N) * p.CoinsPerUTxOByte) ∧
    MinUTxOForBundle p P2 A N = .ok ((241 + 28 * P2 + 17 * A + N) * p.CoinsPerUTxOByte) ∧
    MinUTxOForBundle p P A2 N = .ok ((241 + 28 * P + 17 * A2 + N) * p.CoinsPerUTxOByte) ∧
    MinUTxOForBundle p P A N2 = .ok ((241 + 28 * P + 17 * A + N2) * p.CoinsPerUTxOByte) ∧
    (241 + 28 * P + 17 * A + N) * p.CoinsPerUTxOByte <
      (241 + 28 * P2 + 17 * A + N) * p.CoinsPerUTxOByte ∧
    (241 + 28 * P + 17 * A + N) * p.CoinsPerUTxOByte <
      (241 + 28 * P + 17 * A2 + N) * p.CoinsPerUTxOByte ∧
    (241 + 28 * P + 17 * A + N) * p.CoinsPerUTxOByte <
      (241 + 28 * P + 17 * A + N2) * p.CoinsPerUTxOByte := by
  have hc : p.CoinsPerUTxOByte ≠ 0 := (validate_ok_inv p hv).2.2.1
  have hcpos : 0 < p.CoinsPerUTxOByte := Nat.pos_of_ne_zero hc
  have bound : ∀ X : Nat, X ≤ 241 + 28 * P2 + 17 * A2 + N2 →
      X * p.CoinsPerUTxOByte < U := fun X hX =>
    lt_of_le_of_lt (Nat.mul_le_mul_right _ hX) hov
  refine ⟨?_, ?_, ?_, ?_, ?_, ?_, ?_, ?_, ?_⟩
  · unfold MinUTxOForBundle
    rw [if_pos rfl]
  · unfold MinUTxOForBundle
    rw [if_neg (by omega), if_pos rfl]
  · unfold MinUTxOForBundle
    rw [if_neg (by omega), if_neg (by omega)]
    exact minUTxO_tokens p P A N hv (by omega) (bound _ (by omega))
  · unfold MinUTxOForBundle
    rw [if_neg (by omega), if_neg (by omega)]
    exact minUTxO_tokens p P2 A N hv (by omega) (bound _ (by omega))
  · unfold MinUTxOForBundle
    rw [if_neg (by omega), if_neg (by omega)]
    exact minUTxO_tokens p P A2 N hv (by omega) (bound _ (by omega))
  · unfold MinUTxOForBundle
    rw [if_neg (by omega), if_neg (by omega)]
    exact minUTxO_tokens p P A N2 hv (by omega) (bound _ (by omega))
  · exact (Nat.mul_lt_mul_right hcpos).mpr (by omega)
  · exact (Nat.mul_lt_mul_right hcpos).mpr (by omega)
  · exact (Nat.mul_lt_mul_right hcpos).mpr (by omega)

/-- Witness for the amended claim C7 at the mainnet parameters, growing a
1-policy 1-asset 0-name-byte bundle in each argument. -/
theorem minUTxOForBundle_spec_amended_witness :
    (DefaultMainnetParams.Validate = .ok () ∧
      (241 + 28 * 2 + 17 * 2 + 1) * DefaultMainnetParams.CoinsPerUTxOByte < U) ∧
    (MinUTxOForBundle DefaultMainnetParams 0 1 0 =
        .error (.minUTxOError "numPolicies must be at least 1") ∧
      MinUTxOForBundle DefaultMainnetParams 1 0 0 =
        .error (.minUTxOError "numAssets must be at least 1") ∧
      MinUTxOForBundle DefaultMainnetParams 1 1 0 = .ok 1232660 ∧
      MinUTxOForBundle DefaultMainnetParams 2 1 0 = .ok 1353340 ∧
      MinUTxOForBundle DefaultMainnetParams 1 2 0 = .ok 1305930 ∧
      MinUTxOForBundle DefaultMainnetParams 1 1 1 = .ok 1236970 ∧
      (1232660 : Nat) < 1353340 ∧ (1232660 : Nat) < 1305930 ∧
      (1232660 : Nat) < 1236970) := by
  have h := minUTxOForBundle_spec_amended DefaultMainnetParams 1 1 0 2 2 1
    (by decide) (by decide) (by decide) (by decide) (by decide) (by decide) (by decide)
  exact ⟨⟨by decide, by decide⟩, by simpa [DefaultMainnetParams] using h⟩

/-- Claim C8: `SumLovelace` is the left fold of `AddLovelace` from zero, the
empty sequence sums to 0, and when some prefix sum plus the next element
reaches 2^64 the fold fails at the first such position, reporting exactly
that addition instead of wrapping. -/
theorem sumLovelace_spec (l : List Nat) (k : Nat)
    (hall : ∀ x ∈ l, x < U)
    (hk : k < l.length)
    (hpre : (l.take k).sum < U)
    (hov : U ≤ (l.take k).sum + l.get ⟨k, hk⟩) :
    SumLovelace l = List.foldlM AddLovelace 0 l ∧
    SumLovelace ([] : List Nat) = .ok 0 ∧
    SumLovelace l = .error (.genericError
      ("fees: AddLovelace: overflow adding " ++ toString ((l.take k).sum) ++
        " + " ++ toString (l.get ⟨k, hk⟩))) := by
  refine ⟨sumLovelaceGo_foldlM l 0, rfl, ?_⟩
  have h := sumLovelaceGo_first_overflow l k 0 hall hk (by omega) (by omega)
  simpa using h

/-- Witness for claim C8: the first overflow of [2^63, 2^63, 5] is at
position 1 and `SumLovelace` reports that addition. -/
theorem sumLovelace_spec_witness :
    ((∀ x ∈ [2 ^ 63, 2 ^ 63, 5], x < U) ∧ 1 < [2 ^ 63, 2 ^ 63, 5].length ∧
      (([2 ^ 63, 2 ^ 63, 5] : List Nat).take 1).sum < U) ∧
    (SumLovelace [2 ^ 63, 2 ^ 63, 5] = List.foldlM AddLovelace 0 [2 ^ 63, 2 ^ 63, 5] ∧
      SumLovelace ([] : List Nat) = .ok 0 ∧
      SumLovelace [2 ^ 63, 2 ^ 63, 5] = .error (.genericError
        ("fees: AddLovelace: overflow adding " ++ toString (2 ^ 63 : Nat) ++
          " + " ++ toString (2 ^ 63 : Nat)))) := by
  have h := sumLovelace_spec [2 ^ 63, 2 ^ 63, 5] 1
    (by decide) (by decide) (by decide) (by decide)
  exact ⟨⟨by decide, by decide, by decide⟩, by simpa using h⟩

/-- Claim C9: `MinFeeWithPadding` agrees with `MinFee` on the summed byte
count, for every pair that fits in uint64. -/
theorem minFeeWithPadding_eq (p : ProtocolParams) (x y : Nat) (h : x + y < U) :
    MinFeeWithPadding p x y = MinFee p (x + y) := by
  unfold MinFeeWithPadding
  rw [Nat.mod_eq_of_lt h]

/-- Witness for claim C9 at the mainnet parameters, 300 + 150 bytes. -/
theorem minFeeWithPadding_eq_witness :
    (300 + 150 < U) ∧
    MinFeeWithPadding DefaultMainnetParams 300 150 = MinFee DefaultMainnetParams 450 :=
  ⟨by decide, minFeeWithPadding_eq DefaultMainnetParams 300 150 (by decide)⟩

/-- Claim C10 fails as stated: the structural estimate of an output whose
address length is 2^64 - 19 wraps to 0 (below the claimed minimum 19), so
`MinUTxO` on valid mainnet parameters hits the zero-byte error branch. -/
theorem estimateOutputBytes_positive_counterexample :
    EstimateOutputBytes { AddressBytes := 2 ^ 64 - 19 } = 0 ∧
    ¬ 19 ≤ EstimateOutputBytes { AddressBytes := 2 ^ 64 - 19 } ∧
    DefaultMainnetParams.Validate = .ok () ∧
    MinUTxO DefaultMainnetParams { AddressBytes := 2 ^ 64 - 19 } =
      .error (.minUTxOError "serializedOutputBytes must be greater than zero") :=
  ⟨by decide, by decide, by decide, by decide⟩

/-- Claim C10 (amended): whenever the sum of an output's structural
contributions fits in uint64, the structural estimate is at least 19, so
`MinUTxO` never reaches the zero-byte error branch and succeeds on every
valid parameter set. -/
theorem minUTxO_total_amended (p : ProtocolParams) (out : OutputSize)
    (hv : p.Validate = .ok ())
    (hB : 19 + out.AddressBytes + 5 + 28 * out.NumPolicies + 17 * out.NumAssets +
      out.TotalAssetNameBytes + 32 + out.InlineDatumBytes + out.ScriptRefBytes < U) :
    19 ≤ EstimateOutputBytes out ∧ ∃ v, MinUTxO p out = .ok v := by
  obtain ⟨h19, hU⟩ := estimateOutputBytes_bounds out hB
  refine ⟨h19, ?_⟩
  unfold MinUTxO
  rw [hv]
  dsimp only
  rw [minUTxOFromBytes_ok p _ hv (by omega)]
  exact ⟨_, rfl⟩

/-- Witness for the amended claim C10 at the mainnet parameters, on the
standard 57-byte-address ADA-only output. -/
theorem minUTxO_total_amended_witness :
    (DefaultMainnetParams.Validate = .ok () ∧
      19 + (OutputSize.AddressBytes { AddressBytes := 57 }) + 5 +
        28 * (OutputSize.NumPolicies { AddressBytes := 57 }) +
        17 * (OutputSize.NumAssets { AddressBytes := 57 }) +
        (OutputSize.TotalAssetNameBytes { AddressBytes := 57 }) + 32 +
        (OutputSize.InlineDatumBytes { AddressBytes := 57 }) +
        (OutputSize.ScriptRefBytes { AddressBytes := 57 }) < U) ∧
    (19 ≤ EstimateOutputBytes { AddressBytes := 57 } ∧
      ∃ v, MinUTxO DefaultMainnetParams { AddressBytes := 57 } = .ok v) :=
  ⟨⟨by decide, by decide⟩,
    minUTxO_total_amended DefaultMainnetParams { AddressBytes := 57 }
      (by decide) (by decide)⟩

end CardanoFees
